import Mathlib

/-!
Verification of the OpenFOAM-LSP VS Code extension client
(src/client/src/extension.ts) against its natural-language specification.

The file shallowly embeds the extension module: the launch specification
built in activate (command, environment overlay, server options, client
options), the module-level client variable, and the observable behavior of
activate and deactivate, and proves or refutes the specified properties.
-/

namespace OFoamLsp

/-- A JavaScript object with string-valued properties, as a lookup function
from property name to optional value. Used to model process.env and the env
overlay object in the Executable options. -/
def JsObj : Type := String → Option String

/-- Setting a property on a JavaScript object: in an object literal a later
key overwrites an earlier one (so a literal key written after a spread wins
on collision). -/
def objSet (o : JsObj) (k v : String) : JsObj :=
  fun q => if q = k then some v else o q

/-- The env object of the run Executable built in activate:
spread of process.env followed by the literal binding RUST_LOG to "debug". -/
def runEnv (processEnv : JsObj) : JsObj :=
  objSet processEnv "RUST_LOG" "debug"

/-- Options record of an Executable (vscode-languageclient): only the env
field is populated by the source. -/
structure ExecutableOptions where
  env : JsObj

/-- An Executable server description: a command and its options. The source
supplies no argument list, so there is no args field to populate. -/
structure Executable where
  command : String
  options : ExecutableOptions

/-- The hardcoded launch path assigned to the local constant command in
activate. -/
def command : String := "/Users/laurence/OpenFOAM-LSP/target/release/ofoam_ls"

/-- Host configuration surface for the extension. The package manifest
contributes an empty configuration object, but the specification speaks of a
configured executable path, so the record carries a configured command for
comparison with what activate actually launches. -/
structure HostConfiguration where
  serverCommand : String

/-- The run Executable constructed in activate: the hardcoded command and an
options record whose env is process.env overlaid with RUST_LOG bound to
"debug". -/
def run (processEnv : JsObj) : Executable :=
  { command := command, options := { env := runEnv processEnv } }

/-- The command activate launches, as a function of the host configuration:
activate never reads the configuration, it uses the hardcoded constant. -/
def launchedCommand (_cfg : HostConfiguration) (processEnv : JsObj) : String :=
  (run processEnv).command

/-- ServerOptions record with a run and a debug executable
(vscode-languageclient shape). -/
structure ServerOptions where
  run : Executable
  debug : Executable

/-- The serverOptions value built in activate: both modes use the same run
Executable. -/
def serverOptions (processEnv : JsObj) : ServerOptions :=
  { run := run processEnv, debug := run processEnv }

/-- A document filter as written in the source: a scheme and a language. -/
structure DocumentFilter where
  scheme : String
  language : String
deriving DecidableEq

/-- The documentSelector value built in activate: the single filter with
scheme "file" and language "*". -/
def documentSelector : List DocumentFilter :=
  [{ scheme := "file", language := "*" }]

/-- The identity of a hosting-environment text document for selector
matching: its URI scheme and its language id. -/
structure TextDocumentId where
  scheme : String
  languageId : String
deriving DecidableEq

/-- Modelled from the spec: the hosting-environment document-filter match,
which is not part of this repository. A filter component matches when it
equals the corresponding document value or is the wildcard string "*". -/
def filterMatches (f : DocumentFilter) (d : TextDocumentId) : Bool :=
  (f.scheme == "*" || f.scheme == d.scheme)
    && (f.language == "*" || f.language == d.languageId)

/-- A selector matches a document when any of its filters does. -/
def selectorMatches (sel : List DocumentFilter) (d : TextDocumentId) : Bool :=
  sel.any (fun f => filterMatches f d)

/-- One segment of a glob pattern over path segments: either the multi-level
wildcard matching any number of directories, or a literal segment. -/
inductive GlobSeg where
  | anyDirs : GlobSeg
  | lit : String → GlobSeg
deriving DecidableEq

/-- The glob pattern handed to createFileSystemWatcher in activate, split
into segments: the multi-level wildcard followed by the literal .clientrc. -/
def clientrcPattern : List GlobSeg :=
  [GlobSeg.anyDirs, GlobSeg.lit ".clientrc"]

/-- Modelled from the spec: hosting-environment glob matching over path
segments, which is not part of this repository. An empty pattern matches only
the empty path, a literal consumes exactly one equal segment, and the
multi-level wildcard lets the rest of the pattern match any suffix of the
path (it consumes zero or more leading segments). -/
def globMatch : List GlobSeg → List String → Bool
  | [], path => path.isEmpty
  | GlobSeg.lit _ :: _, [] => false
  | GlobSeg.lit s :: ps, t :: ts => s == t && globMatch ps ts
  | GlobSeg.anyDirs :: ps, path =>
      (List.tails path).any (fun suffix => globMatch ps suffix)

/-- Whether a filesystem event at the given path (as segments) is forwarded
to the server: the synchronize.fileEvents watcher is created with exactly the
clientrc pattern, so an event is forwarded precisely when its path matches
that pattern. -/
def forwardsWatchEvent (path : List String) : Bool :=
  globMatch clientrcPattern path

/-- Phase of a LanguageClient instance: started by activate, stopped by a
completed stop call. -/
inductive ClientPhase where
  | started
  | stopped
deriving DecidableEq

/-- State of the extension module: the phase of the client currently held by
the module-level client variable (none before the first activate, since the
variable starts undefined), and the phases of clients that were created by an
earlier activate and then overwritten by a later one (unreachable from the
module but never stopped by it). -/
structure ModuleState where
  current : Option ClientPhase
  leaked : List ClientPhase
deriving DecidableEq

/-- The module state before any call: the client variable is undefined and no
client was ever created. -/
def initState : ModuleState := { current := none, leaked := [] }

/-- Effect of activate on the module state: a fresh LanguageClient is created
and started and the module variable is redirected to it; whatever client the
variable held before is neither stopped nor referenced any longer. -/
def activateStep (s : ModuleState) : ModuleState :=
  { current := some ClientPhase.started, leaked := s.leaked ++ s.current.toList }

/-- Outcome of the promise returned by client.stop(). -/
inductive StopOutcome where
  | ok
  | error (msg : String)
deriving DecidableEq

/-- Modelled from the spec: the outcome of invoking stop on a client in a
given phase. The client library is outside this repository; per the
specification, stopping an already stopped session is an idempotent no-op
that does not error, while stopping a started client yields whatever outcome
the underlying session teardown produces, an open parameter here. -/
def stopCallOutcome (ph : ClientPhase) (freshOutcome : StopOutcome) :
    StopOutcome :=
  match ph with
  | ClientPhase.stopped => StopOutcome.ok
  | ClientPhase.started => freshOutcome

/-- Result and effect of deactivate: when the client variable is undefined it
returns undefined (none) without calling stop on anything and changes no
state; otherwise it invokes client.stop(), hands that outcome back to the
host unchanged (there is no catch and no logging around it), and the
referenced client ends stopped. -/
def deactivateCall (s : ModuleState) (freshOutcome : StopOutcome) :
    Option StopOutcome × ModuleState :=
  match s.current with
  | none => (none, s)
  | some ph =>
      (some (stopCallOutcome ph freshOutcome),
       { s with current := some ClientPhase.stopped })

/-- State effect of deactivate alone; it does not depend on the outcome of
the stop call. -/
def deactivateStep (s : ModuleState) : ModuleState :=
  (deactivateCall s StopOutcome.ok).2

/-- The two entry points of the extension module. -/
inductive Call where
  | activate
  | deactivate
deriving DecidableEq

/-- Applying one entry point to the module state. -/
def step (s : ModuleState) : Call → ModuleState
  | Call.activate => activateStep s
  | Call.deactivate => deactivateStep s

/-- The module state after a sequence of entry-point calls, starting from the
fresh module. -/
def runCalls (seq : List Call) : ModuleState :=
  seq.foldl step initState

/-- Number of started clients in a list of client phases. -/
def countStarted : List ClientPhase → Nat
  | [] => 0
  | ClientPhase.started :: t => countStarted t + 1
  | ClientPhase.stopped :: t => countStarted t

/-- Total number of started clients alive in a module state: the leaked ones
plus the currently referenced one when it is started. -/
def totalStarted (s : ModuleState) : Nat :=
  countStarted s.leaked
    + (match s.current with
       | some ClientPhase.started => 1
       | _ => 0)

/-- The host call protocol: between any two activate calls there is a
deactivate. The flag records whether an activate has happened with no
deactivate after it. -/
def wfCalls : Bool → List Call → Bool
  | _, [] => true
  | false, Call.activate :: rest => wfCalls true rest
  | true, Call.activate :: _ => false
  | _, Call.deactivate :: rest => wfCalls false rest

/-- Outcome of launching the server and running the initialization handshake:
the eventual settlement of the promise returned by client.start(). -/
inductive StartOutcome where
  | ok
  | launchError (msg : String)
deriving DecidableEq

/-- Settlement of the promise returned by activate, as a function of how
client.start() settles: the source calls client.start() without awaiting it
and discards the returned promise, so the async body of activate completes
normally and its promise resolves regardless of the launch outcome. -/
def activateResult (_clientStartResult : StartOutcome) : StartOutcome :=
  StartOutcome.ok

/-! ## Helper lemmas -/

/-- A call sequence with no activate leaves the module in its initial state:
deactivate on an undefined client variable changes nothing. -/
theorem runCalls_eq_init_of_no_activate (seq : List Call)
    (h : Call.activate ∉ seq) : runCalls seq = initState := by
  have general : ∀ l : List Call, Call.activate ∉ l →
      l.foldl step initState = initState := by
    intro l
    induction l with
    | nil => intro _; rfl
    | cons c rest ih =>
      intro hm
      rw [List.mem_cons] at hm
      push_neg at hm
      cases c with
      | activate => exact absurd rfl hm.1.symm
      | deactivate =>
        show rest.foldl step (step initState Call.deactivate) = initState
        have hstep : step initState Call.deactivate = initState := rfl
        rw [hstep]
        exact ih hm.2
  exact general seq h

/-- Started clients in a concatenation split additively. -/
theorem countStarted_append (l₁ l₂ : List ClientPhase) :
    countStarted (l₁ ++ l₂) = countStarted l₁ + countStarted l₂ := by
  induction l₁ with
  | nil => simp [countStarted]
  | cons c t ih =>
    cases c with
    | started =>
      simp [countStarted, ih]
      omega
    | stopped => simp [countStarted, ih]

/-- A module state whose leaked clients are all stopped has at most one
started client in total. -/
theorem totalStarted_le_one_of_leaked_stopped (s : ModuleState)
    (h : countStarted s.leaked = 0) : totalStarted s ≤ 1 := by
  unfold totalStarted
  rw [h]
  cases hc : s.current with
  | none => simp
  | some ph => cases ph <;> simp

/-- Invariant of the host call protocol: starting from a state with no
started leaked client (after an activate) or no started client at all
(otherwise), a protocol-respecting call sequence keeps the number of started
clients at one or below. -/
theorem wf_foldl_bound (seq : List Call) :
    ∀ (b : Bool) (s : ModuleState), wfCalls b seq = true →
      (if b then countStarted s.leaked = 0 else totalStarted s = 0) →
      totalStarted (seq.foldl step s) ≤ 1 := by
  induction seq with
  | nil =>
    intro b s _ hinv
    cases b with
    | true =>
      simp only [if_true] at hinv
      exact totalStarted_le_one_of_leaked_stopped s hinv
    | false =>
      replace hinv : totalStarted s = 0 := by simpa using hinv
      simp [List.foldl, hinv]
  | cons c rest ih =>
    intro b s hwf hinv
    cases c with
    | activate =>
      cases b with
      | true => simp [wfCalls] at hwf
      | false =>
        replace hinv : totalStarted s = 0 := by simpa using hinv
        have hleak : countStarted s.leaked = 0 := by
          unfold totalStarted at hinv
          omega
        have hcur : countStarted s.current.toList = 0 := by
          unfold totalStarted at hinv
          cases hc : s.current with
          | none => simp [Option.toList, countStarted]
          | some ph =>
            cases ph with
            | started => rw [hc] at hinv; simp at hinv
            | stopped => simp [hc, Option.toList, countStarted]
        have hnew : countStarted (activateStep s).leaked = 0 := by
          unfold activateStep
          rw [countStarted_append, hleak, hcur]
        have hwf2 : wfCalls true rest = true := hwf
        exact ih true (activateStep s) hwf2 (by simp [hnew])
    | deactivate =>
      have hleak : countStarted s.leaked = 0 := by
        cases b with
        | true => simpa using hinv
        | false =>
          replace hinv : totalStarted s = 0 := by simpa using hinv
          unfold totalStarted at hinv
          omega
      have hnew : totalStarted (deactivateStep s) = 0 := by
        unfold deactivateStep deactivateCall
        cases hc : s.current with
        | none => simp [totalStarted, hc, hleak]
        | some ph => simp [totalStarted, hleak]
      have hwf2 : wfCalls false rest = true := by
        cases b <;> exact hwf
      exact ih false (deactivateStep s) hwf2 (by simp [hnew])

/-- The general glob matcher specialised to the clientrc pattern: a path
matches exactly when its final segment is .clientrc. -/
theorem globMatch_clientrc_iff (path : List String) :
    globMatch clientrcPattern path = true ↔
      path.getLast? = some ".clientrc" := by
  induction path with
  | nil => simp [clientrcPattern, globMatch]
  | cons t ts ih =>
    cases ts with
    | nil =>
      simp [clientrcPattern, globMatch]
      exact eq_comm
    | cons u us =>
      rw [List.getLast?_cons_cons, ← ih]
      simp only [clientrcPattern, globMatch, List.tails, List.any_cons]
      cases hrec : (List.tails (u :: us)).any
          (fun suffix => globMatch [GlobSeg.lit ".clientrc"] suffix) <;>
        simp [globMatch, List.isEmpty, hrec]

/-! ## Claim theorems -/

/-- C1: in every state in which activate has never been called, deactivate
returns undefined without invoking client.stop() on anything and leaves the
module state unchanged, whatever outcome a stop call would have had. -/
theorem deactivate_never_started_noop (seq : List Call) (o : StopOutcome)
    (h : Call.activate ∉ seq) :
    deactivateCall (runCalls seq) o = (none, runCalls seq) := by
  rw [runCalls_eq_init_of_no_activate seq h]
  rfl

/-- Witness for C1 at the concrete call sequence of a single deactivate. -/
theorem deactivate_never_started_noop_witness :
    Call.activate ∉ [Call.deactivate] ∧
      deactivateCall (runCalls [Call.deactivate]) StopOutcome.ok =
        (none, runCalls [Call.deactivate]) :=
  ⟨by decide,
   deactivate_never_started_noop [Call.deactivate] StopOutcome.ok (by decide)⟩

/-- C2 counterexample: after a start, when client.stop() fails, the value
deactivate returns to the host is exactly that failure, so teardown does fail
observably to the caller. -/
theorem deactivate_propagates_stop_failure :
    (deactivateCall (runCalls [Call.activate])
        (StopOutcome.error "stop failed")).1 =
      some (StopOutcome.error "stop failed") := rfl

/-- C2 amended: deactivate returns undefined when no client exists, and
otherwise returns the promise from client.stop() unchanged, so any failure of
the stop call is propagated to the host rather than absorbed. -/
theorem deactivate_result_spec (l : List ClientPhase) (o : StopOutcome) :
    (deactivateCall { current := none, leaked := l } o).1 = none ∧
      (deactivateCall { current := some ClientPhase.started, leaked := l }
          o).1 = some o := ⟨rfl, rfl⟩

/-- C3: the environment of the spawned server equals the inherited process
environment overlaid by the single binding of RUST_LOG to "debug": RUST_LOG
reads "debug" and every other variable keeps its inherited value. -/
theorem run_env_merge (processEnv : JsObj) (k : String) :
    (run processEnv).options.env k =
      if k = "RUST_LOG" then some "debug" else processEnv k := rfl

/-- C4 counterexample: with a host configuration that configures a different
server command, activate still launches the hardcoded path, so the launched
command is not the configured one. -/
theorem launched_command_not_configured :
    launchedCommand { serverCommand := "/usr/bin/ofoam_ls" } (fun _ => none) =
        "/Users/laurence/OpenFOAM-LSP/target/release/ofoam_ls" ∧
      launchedCommand { serverCommand := "/usr/bin/ofoam_ls" } (fun _ => none)
          ≠ "/usr/bin/ofoam_ls" :=
  ⟨rfl, by decide⟩

/-- C4 amended: the launched executable path is the hardcoded constant for
every host configuration and every inherited environment; no argument list is
supplied and the launch specification does not vary with configuration. -/
theorem launchedCommand_constant (cfg : HostConfiguration)
    (processEnv : JsObj) :
    launchedCommand cfg processEnv =
      "/Users/laurence/OpenFOAM-LSP/target/release/ofoam_ls" := rfl

/-- C5 counterexample: the installed selector does not match a document whose
scheme is not file, so it is not an unconditional wildcard over schemes. -/
theorem selector_rejects_non_file_scheme :
    selectorMatches documentSelector
      { scheme := "untitled", languageId := "foam" } = false := by decide

/-- C5 amended: the installed selector matches exactly the documents whose
scheme is file, with any language id (the wildcard covers only the language
component). -/
theorem selector_matches_iff_file_scheme (d : TextDocumentId) :
    selectorMatches documentSelector d = true ↔ d.scheme = "file" := by
  simp [selectorMatches, documentSelector, filterMatches]
  exact eq_comm

/-- C6 counterexample: when launching the server fails, the promise returned
by activate still resolves successfully instead of failing with that error,
because client.start() is invoked without awaiting its result. -/
theorem activate_resolves_despite_launch_failure :
    activateResult (StartOutcome.launchError "spawn ENOENT") =
        StartOutcome.ok ∧
      StartOutcome.ok ≠ StartOutcome.launchError "spawn ENOENT" :=
  ⟨rfl, by decide⟩

/-- C6 amended: the promise returned by activate resolves successfully for
every settlement of client.start(); launch and handshake failures are not
surfaced through the value activate returns to the host. -/
theorem activateResult_always_ok (r : StartOutcome) :
    activateResult r = StartOutcome.ok := rfl

/-- C7: deactivate is idempotent after any prior call sequence: a second
deactivate leaves the module state exactly where the first left it, and the
second call never hands an error back to the host, whatever outcomes the two
underlying stop calls would produce. -/
theorem deactivate_idempotent (seq : List Call) (o₁ o₂ : StopOutcome) :
    (deactivateCall (deactivateCall (runCalls seq) o₁).2 o₂).2 =
        (deactivateCall (runCalls seq) o₁).2 ∧
      ((deactivateCall (deactivateCall (runCalls seq) o₁).2 o₂).1 = none ∨
        (deactivateCall (deactivateCall (runCalls seq) o₁).2 o₂).1 =
          some StopOutcome.ok) := by
  cases hc : (runCalls seq).current with
  | none => simp [deactivateCall, hc]
  | some ph => simp [deactivateCall, hc, stopCallOutcome]

/-- C8 counterexample: the call sequence of two consecutive activates leaves
two started clients alive at once, the leaked first one and the referenced
second one. -/
theorem double_activate_two_started :
    totalStarted (runCalls [Call.activate, Call.activate]) = 2 := rfl

/-- C8 amended: the module tracks a single client reference, and under the
host call protocol in which no second activate occurs without a deactivate in
between, at most one started client is alive after any such call sequence; a
repeated activate without an intervening deactivate instead leaks the
previously started client. -/
theorem at_most_one_started_of_wf (seq : List Call)
    (h : wfCalls false seq = true) : totalStarted (runCalls seq) ≤ 1 :=
  wf_foldl_bound seq false initState h
    (by simp [totalStarted, initState, countStarted])

/-- Witness for the amended C8 on the concrete protocol-respecting sequence
activate, deactivate, activate. -/
theorem at_most_one_started_of_wf_witness :
    wfCalls false [Call.activate, Call.deactivate, Call.activate] = true ∧
      totalStarted (runCalls [Call.activate, Call.deactivate, Call.activate])
        ≤ 1 :=
  ⟨rfl, at_most_one_started_of_wf
    [Call.activate, Call.deactivate, Call.activate] rfl⟩

/-- C9: the debug server options are the very same Executable as the run
server options, so the subprocess launch is identical in both modes. -/
theorem serverOptions_debug_eq_run (processEnv : JsObj) :
    (serverOptions processEnv).debug = (serverOptions processEnv).run := rfl

/-- C10: a filesystem event is forwarded to the server exactly when the final
segment of its path is .clientrc: events at any other path never generate a
file-change notification, and only .clientrc files do. -/
theorem forwardsWatchEvent_iff_clientrc (path : List String) :
    forwardsWatchEvent path = true ↔ path.getLast? = some ".clientrc" :=
  globMatch_clientrc_iff path

end OFoamLsp
